import Mathlib

/-
Verification of the rbd provisioning orchestration (teuthology/task/rbd.py).

The Python source drives remote commands (argument lists handed to
remote.run) through context-manager provisioning steps composed with
contextutil.nested.  The embedding below renders each step as a pure
function from its configuration (and, where remote commands can fail, an
explicit failure oracle) to the list of remote commands it issues plus an
outcome.  Shell-level composition (&&, ||, the udev polling loops) is
modelled by a small command syntax with an explicit evaluation function.
-/

/-- default_image_name from rbd.py: the canonical default image name
testimage.<role>. -/
def default_image_name (role : String) : String := "testimage." ++ role

/-- The coverage/library wrapper prepended to every rbd invocation in
create_image, dev_create and friends. -/
def rbdWrapper : List String :=
  ["LD_LIBRARY_PATH=/tmp/cephtest/binary/usr/local/lib",
   "/tmp/cephtest/enable-coredump",
   "/tmp/cephtest/binary/usr/local/bin/ceph-coverage",
   "/tmp/cephtest/archive/coverage",
   "/tmp/cephtest/binary/usr/local/bin/rbd"]

/-- Argument list of the image-creation command issued by create_image. -/
def rbdCreateArgs (fmt size : Nat) (name : String) : List String :=
  rbdWrapper ++ ["-c", "/tmp/cephtest/ceph.conf", "-p", "rbd", "create",
    "--format", toString fmt, "--size", toString size, name]

/-- Argument list of the image-removal command issued in create_image
teardown. -/
def rbdRmArgs (name : String) : List String :=
  rbdWrapper ++ ["-c", "/tmp/cephtest/ceph.conf", "-p", "rbd", "rm", name]

/-- Per-target properties dictionary: each field optional, mirroring
properties.get with a default in the source. -/
structure ImgProps where
  image_name : Option String := none
  image_size : Option Nat := none
  image_format : Option Nat := none
  fs_type : Option String := none
deriving DecidableEq

/-- Raw task configuration: a dictionary role -> properties or a plain
list of roles (rbd.py accepts both shapes). -/
inductive RbdConfig where
  | dict (entries : List (String × Option ImgProps))
  | roles (rs : List String)
deriving DecidableEq

/-- images = config.items() or [(role, None) for role in config]. -/
def imagesOf : RbdConfig → List (String × Option ImgProps)
  | .dict l => l
  | .roles rs => rs.map (fun r => (r, none))

/-- Resolved image name in create_image and mkfs:
properties.get of image_name with default default_image_name(role). -/
def create_image_name (role : String) (props : Option ImgProps) : String :=
  (props.getD {}).image_name.getD (default_image_name role)

/-- Resolved image size in create_image: properties.get of image_size with
default 10240. -/
def create_image_size (props : Option ImgProps) : Nat :=
  (props.getD {}).image_size.getD 10240

/-- Resolved image format in create_image: properties.get of image_format
with default 1. -/
def create_image_format (props : Option ImgProps) : Nat :=
  (props.getD {}).image_format.getD 1

/-- The full create command one loop iteration of create_image issues. -/
def createCmdArgs (role : String) (props : Option ImgProps) : List String :=
  rbdCreateArgs (create_image_format props) (create_image_size props)
    (create_image_name role props)

/-- The forward loop of create_image: issues one create command per target
in list order; a failing remote.run raises, aborting the loop with the
commands issued so far (the failing command included). -/
def createLoop (fails : String → Option Nat) :
    List (String × Option ImgProps) → List (String × List String) × Option Nat
  | [] => ([], none)
  | (role, props) :: rest =>
    let cmd := (role, createCmdArgs role props)
    match fails role with
    | some e => ([cmd], some e)
    | none =>
      let (cs, r) := createLoop fails rest
      (cmd :: cs, r)

/-- The teardown loop of create_image: one rbd rm per target, same
resolution of the image name. -/
def deleteLoop : List (String × Option ImgProps) → List (String × List String)
  | [] => []
  | (role, props) :: rest =>
    (role, rbdRmArgs (create_image_name role props)) :: deleteLoop rest

/-- A full run of the create_image generator: the creation loop runs
before the try/finally, so if any creation raises, the finally block (the
deletion loop) is never entered; otherwise the body runs and the deletions
always follow. -/
def create_image_run (fails : String → Option Nat) (config : RbdConfig)
    (bodyFails : Option Nat) : List (String × List String) × Option Nat :=
  let images := imagesOf config
  match createLoop fails images with
  | (cs, some e) => (cs, some e)
  | (cs, none) => (cs ++ deleteLoop images, bodyFails)

/-- Shell commands as composed by rbd.py: plain argument lists, possibly
chained with the run.Raw tokens for disjunction, conjunction and the two
udev polling loops. -/
inductive ShellCmd where
  | simple (args : List String)
  | orCmd (a b : ShellCmd)
  | andCmd (a b : ShellCmd)
  | waitGone (path : String)
  | waitExists (path : String)
deriving DecidableEq

/-- The flat argument list handed to remote.run for a composed command,
with the same separator tokens the source passes as run.Raw. -/
def flatArgs : ShellCmd → List String
  | .simple a => a
  | .orCmd a b => flatArgs a ++ ["||"] ++ flatArgs b
  | .andCmd a b => flatArgs a ++ ["&&"] ++ flatArgs b
  | .waitGone p => ["while", "test", "-e", p, ";", "do", "sleep", "1", ";", "done"]
  | .waitExists p => ["while", "test", "!", "-e", p, ";", "do", "sleep", "1", ";", "done"]

/-- One tick of a shell polling loop: keep looping while cond holds,
sleeping one second per iteration.  fuel is the number of iterations we
observe; none means the loop is still spinning after that many checks
(the source imposes no bound of its own). -/
def waitTicks (cond : Nat → Bool) : Nat → Nat → Option Nat
  | 0, _ => none
  | fuel + 1, t => if cond t then waitTicks cond fuel (t + 1) else some 0

/-- Exit status of a composed shell command: env gives each elementary
command status (the shell builtin true always exits 0), present gives
the udev symlink presence at each polling tick, fuel bounds how long we
observe a polling loop.  none means the command has not terminated within
the observation bound. -/
def evalShell (env : List String → Nat) (present : Nat → Bool) (fuel : Nat) :
    ShellCmd → Option Nat
  | .simple a => some (if a = ["true"] then 0 else env a)
  | .orCmd a b =>
    match evalShell env present fuel a with
    | none => none
    | some s => if s = 0 then some 0 else evalShell env present fuel b
  | .andCmd a b =>
    match evalShell env present fuel a with
    | none => none
    | some s => if s = 0 then evalShell env present fuel b else some s
  | .waitGone _ => waitTicks (fun t => present t) fuel 0
  | .waitExists _ => waitTicks (fun t => !present t) fuel 0

/-- Result of remote.run on a composed command: none means the call never
returns (command still running); some none is a normal return; some
(some s) is the CommandFailedError raised for a nonzero status.  With
wait set to false the call returns immediately and no failure is ever
observed. -/
def remoteRun (env : List String → Nat) (present : Nat → Bool) (fuel : Nat)
    (wait : Bool) (c : ShellCmd) : Option (Option Nat) :=
  if wait then
    match evalShell env present fuel c with
    | none => none
    | some s => if s = 0 then some none else some (some s)
  else some none

/-- The modprobe load command of the module step. -/
def modprobeLoadArgs : List String := ["sudo", "modprobe", "rbd"]

/-- The module unload command of the module step teardown: the source
appends run.Raw of a disjunction with true so unload errors are ignored. -/
def modprobeUnloadCmd : ShellCmd :=
  .orCmd (.simple ["sudo", "modprobe", "-r", "rbd"]) (.simple ["true"])

/-- The device path under which udev exposes a mapped image. -/
def rbdDevPath (image : String) : String := "/dev/rbd/rbd/" ++ image

/-- role.rsplit with a dot, last component: the user id part of a role. -/
def roleUser (role : String) : String := (role.splitOn ".").getLastD ""

/-- Per-role secret file path written before mapping. -/
def secretfile (role : String) : String := "/tmp/cephtest/data/" ++ role ++ ".secret"

/-- Resolved image name in dev_create: the configured image or the
canonical default. -/
def dev_create_image (role : String) (image : Option String) : String :=
  image.getD (default_image_name role)

/-- The map command of dev_create. -/
def rbdMapArgs (role image : String) : List String :=
  ["sudo"] ++ rbdWrapper ++ ["-c", "/tmp/cephtest/ceph.conf",
    "--user", roleUser role, "--secret", secretfile role, "-p", "rbd", "map", image]

/-- dev_create enter per role: map the image, then poll every second until
the udev symlink exists (no bound in the source). -/
def devMapCmd (role image : String) : ShellCmd :=
  .andCmd (.simple (rbdMapArgs role image)) (.waitExists (rbdDevPath image))

/-- The unmap command of dev_create teardown. -/
def rbdUnmapArgs (image : String) : List String :=
  ["sudo"] ++ rbdWrapper ++ ["-c", "/tmp/cephtest/ceph.conf",
    "-p", "rbd", "unmap", rbdDevPath image]

/-- dev_create exit per role: unmap, then poll every second until the udev
symlink is gone (no bound in the source). -/
def devUnmapCmd (image : String) : ShellCmd :=
  .andCmd (.simple (rbdUnmapArgs image)) (.waitGone (rbdDevPath image))

/-- The best-effort removal of the udev rule file in dev_create teardown,
issued with wait set to false. -/
def rmRulesArgs : List String :=
  ["sudo", "rm", "-f", "/etc/udev/rules.d/51-rbd.rules"]

/-- Resolved filesystem type in mkfs: properties.get of fs_type with
default ext3. -/
def mkfs_fs_type (props : Option ImgProps) : String :=
  (props.getD {}).fs_type.getD "ext3"

/-- The mkfs command of the filesystem step. -/
def mkfsArgs (fs image : String) : List String :=
  ["sudo", "mkfs", "-t", fs, rbdDevPath image]

/-- Resolved image name in mkfs: properties.get of image_name with
default default_image_name(role), as in create_image. -/
def mkfs_image (role : String) (props : Option ImgProps) : String :=
  (props.getD {}).image_name.getD (default_image_name role)

/-- The mkfs enter loop: one mkfs per target (this step has no teardown). -/
def mkfsLoop : List (String × Option ImgProps) → List (String × List String)
  | [] => []
  | (role, props) :: rest =>
    (role, mkfsArgs (mkfs_fs_type props) (mkfs_image role props)) :: mkfsLoop rest

/-- A full mkfs step over a raw config. -/
def mkfs_run (config : RbdConfig) : List (String × List String) :=
  mkfsLoop (imagesOf config)

/-- mount step assertion failure: a target identifier without the literal
client. role prefix trips the assert in strip_client_prefix. -/
inductive MountErr where
  | assertionFailed (role : String)
deriving DecidableEq

/-- role.startswith of the client. prefix, phrased over the character
data so that concrete instances evaluate. -/
def isClientRole (role : String) : Bool :=
  "client.".data.isPrefixOf role.data

/-- strip_client_prefix from the mount step: requires the client. role
prefix and returns the identifier with the prefix stripped; the assert
becomes the none branch. -/
def stripClientId (role : String) : Option String :=
  if isClientRole role then some (String.mk (role.data.drop "client.".data.length))
  else none

/-- Resolved image name in the mount step. -/
def mount_image (role : String) (image : Option String) : String :=
  image.getD (default_image_name role)

/-- The mount enter loop: per target, resolve the image, check the role
prefix (asserting before any remote command for that target), create the
mount point /tmp/cephtest/mnt.<id> and mount the device there. -/
def mountLoop : List (String × Option String) → List (String × List String) × Option MountErr
  | [] => ([], none)
  | (role, image) :: rest =>
    let img := mount_image role image
    match stripClientId role with
    | none => ([], some (.assertionFailed role))
    | some i =>
      let mnt := "/tmp/cephtest/mnt." ++ i
      let cmds := [(role, ["mkdir", "--", mnt]),
                   (role, ["sudo", "mount", rbdDevPath img, mnt])]
      match mountLoop rest with
      | (cs, r) => (cmds ++ cs, r)

/-- Properties dictionary of one xfstests run. -/
structure XfsProps where
  test_image : Option String := none
  test_size : Option Nat := none
  scratch_image : Option String := none
  scratch_size : Option Nat := none
  fs_type : Option String := none
  tests : Option String := none
deriving DecidableEq

/-- Errors of xfstests plan building: the two asserts in its checking
loop. -/
inductive XfsErr where
  | notClient (role : String)
  | conflict (host : String)
deriving DecidableEq

/-- Hosts of the cluster that carry a given role, in cluster order: the
hosts the inner loop of the xfstests check claims for one run. -/
def hostsOf (role : String) : List (String × List String) → List String
  | [] => []
  | (host, rolesForHost) :: rest =>
    if role ∈ rolesForHost then host :: hostsOf role rest else hostsOf role rest

/-- The inner loop of the xfstests check for one run: walk the cluster,
and for each host carrying the role, fail if the host is already claimed,
otherwise claim it. -/
def claimHosts (role : String) : List (String × List String) → List String →
    Except String (List String)
  | [], running => .ok running
  | (host, rolesForHost) :: rest, running =>
    if role ∈ rolesForHost then
      if host ∈ running then .error host
      else claimHosts role rest (running ++ [host])
    else claimHosts role rest running

/-- The xfstests checking loop: every run must be on a client role, and no
host may be claimed by two runs; it completes over all runs before any
provisioning starts. -/
def checkRuns (cluster : List (String × List String)) :
    List (String × Option XfsProps) → List String → Option XfsErr
  | [], _ => none
  | (role, _) :: rest, running =>
    if isClientRole role then
      match claimHosts role cluster running with
      | .error h => some (.conflict h)
      | .ok running2 => checkRuns cluster rest running2
    else some (.notClient role)

/-- Fully resolved configuration of one xfstests run, with the defaults
the source applies. -/
structure XfsRun where
  role : String
  test_image : String
  test_size : Nat
  scratch_image : String
  scratch_size : Nat
  fs_type : String
  tests : Option String
deriving DecidableEq

/-- Resolution of one xfstests run from its raw properties: test and
scratch image names and sizes default as in the source, and the test
config fs_type defaults to xfs. -/
def resolveXfsRun (role : String) (props : Option XfsProps) : XfsRun :=
  let p := props.getD {}
  { role := role
    test_image := p.test_image.getD "test_image"
    test_size := p.test_size.getD 1000
    scratch_image := p.scratch_image.getD "scratch_image"
    scratch_size := p.scratch_size.getD 1000
    fs_type := p.fs_type.getD "xfs"
    tests := p.tests }

/-- URL the run_xfstests step fetches the test script from. -/
def xfsTestUrl : String :=
  "https://raw.github.com/ceph/ceph/master/qa/run_xfstests.sh"

/-- Invocation of the fetched test script with the resolved parameters. -/
def xfsScriptArgs (r : XfsRun) : List String :=
  ["LD_LIBRARY_PATH=/tmp/cephtest/binary/usr/local/lib",
   "/tmp/cephtest/enable-coredump",
   "/tmp/cephtest/binary/usr/local/bin/ceph-coverage",
   "/tmp/cephtest/archive/coverage",
   "/usr/bin/sudo", "/bin/bash", "/tmp/cephtest/run_xfstests.sh",
   "-f", r.fs_type, "-t", rbdDevPath r.test_image, "-s", rbdDevPath r.scratch_image]
  ++ (match r.tests with | some t => [t] | none => [])

/-- Provisioning commands of one xfstests run in enter order: the two
image creations, the module load, the two mappings and the workload
fetch and invocation. -/
def xfsSetupCmds (r : XfsRun) : List (String × List String) :=
  [(r.role, rbdCreateArgs 1 r.test_size r.test_image),
   (r.role, rbdCreateArgs 1 r.scratch_size r.scratch_image),
   (r.role, modprobeLoadArgs),
   (r.role, flatArgs (devMapCmd r.role r.test_image)),
   (r.role, flatArgs (devMapCmd r.role r.scratch_image)),
   (r.role, ["wget", "-O", "/tmp/cephtest/run_xfstests.sh", "--", xfsTestUrl]),
   (r.role, xfsScriptArgs r)]

/-- A run of the xfstests orchestration: the checking loop runs to
completion first; only if it passes does any provisioning command get
issued. -/
def xfstests_run (cluster : List (String × List String))
    (config : List (String × Option XfsProps)) :
    List (String × List String) × Option XfsErr :=
  match checkRuns cluster config [] with
  | some e => ([], some e)
  | none => (((config.map (fun p => resolveXfsRun p.1 p.2)).map xfsSetupCmds).flatten, none)

/-- Canonical per-target properties after normalization: every field
resolved, with the defaults of create_image and mkfs. -/
structure ResolvedImg where
  image_name : String
  image_size : Nat
  image_format : Nat
  fs_type : String
deriving DecidableEq

/-- Per-field default resolution of one target, as the steps perform it:
each omitted field independently takes its documented default. -/
def resolveProps (role : String) (props : Option ImgProps) : ResolvedImg :=
  { image_name := create_image_name role props
    image_size := create_image_size props
    image_format := create_image_format props
    fs_type := mkfs_fs_type props }

/-- Modelled from the spec: alias expansion of the Config Normalizer.
teuthology.misc.replace_all_with_clients is not under src/; following
spec section 4.1, the special alias all expands to every client target
exposed by the topology resolver, each expanded target receiving the
alias entry's override properties. -/
def expandAll (clients : List String) :
    List (String × Option ImgProps) → List (String × Option ImgProps)
  | [] => []
  | (role, p) :: rest =>
    (if role = "all" then clients.map (fun c => ("client." ++ c, p)) else [(role, p)])
      ++ expandAll clients rest

/-- The Config Normalizer: expand the all alias over the raw items, then
resolve every field to its default.  clients is the list of client ids the
topology resolver exposes. -/
def normalizeConfig (clients : List String) (config : RbdConfig) :
    List (String × ResolvedImg) :=
  (expandAll clients (imagesOf config)).map (fun q => (q.1, resolveProps q.1 q.2))

/-- A fully resolved target viewed again as a raw properties dictionary
(every field present). -/
def toRawProps (r : ResolvedImg) : ImgProps :=
  { image_name := some r.image_name
    image_size := some r.image_size
    image_format := some r.image_format
    fs_type := some r.fs_type }

/-- Re-inject a canonical normalizer output as a raw dictionary
configuration. -/
def asConfig (out : List (String × ResolvedImg)) : RbdConfig :=
  .dict (out.map (fun q => (q.1, some (toRawProps q.2))))

/-- role_images as the task orchestrator builds it for dev_create and
mount: the configured image_name, or none when the target omitted it. -/
def task_role_image (props : Option ImgProps) : Option String :=
  (props.getD {}).image_name

/-- Observable events of a Lifecycle Stack run: a step's enter succeeding
or raising, a step's exit running, and the workload body running.  Steps
are identified by a numeric id. -/
inductive Event where
  | enterOk (i : Nat)
  | enterFail (i : Nat)
  | exitRun (i : Nat)
  | bodyRun
deriving DecidableEq

/-- Modelled from the spec: one provisioning step of the Lifecycle Stack
(contextutil.nested is not under src/).  Per spec section 4.2 a step is an
enter/exit pair; here the enter behaviour is its event trace plus an
optional failure it raises, and the exit behaviour is its event trace plus
the list of errors its exit raises (exits always run to completion and
their failures are recorded, never replacing an earlier failure). -/
structure StepB where
  enterB : List Event × Option Nat
  exitB : List Event
  exitErrs : List Nat
deriving DecidableEq

/-- A primitive step with id i whose enter raises ef (none meaning it
succeeds) and whose exit raises xf. -/
def leafStep (i : Nat) (ef xf : Option Nat) : StepB :=
  { enterB := match ef with
      | some e => ([Event.enterFail i], some e)
      | none => ([Event.enterOk i], none)
    exitB := [Event.exitRun i]
    exitErrs := xf.toList }

/-- Modelled from the spec: the enter phase of a Lifecycle Stack over an
ordered step list.  Enters run strictly in list order; when one raises,
the exits of every step already entered run immediately in strict reverse
order and the original failure is propagated (unwind failures do not
replace it). -/
def enterList : List StepB → List Event × Option Nat
  | [] => ([], none)
  | s :: rest =>
    match s.enterB with
    | (tr, some e) => (tr, some e)
    | (tr, none) =>
      match enterList rest with
      | (tr2, some e) => (tr ++ tr2 ++ s.exitB, some e)
      | (tr2, none) => (tr ++ tr2, none)

/-- Modelled from the spec: the exit phase of a Lifecycle Stack, running
every step's exit in strict reverse list order. -/
def exitListEv : List StepB → List Event
  | [] => []
  | s :: rest => exitListEv rest ++ s.exitB

/-- Exit failures aggregated over the reverse-order exit phase. -/
def exitErrsList : List StepB → List Nat
  | [] => []
  | s :: rest => exitErrsList rest ++ s.exitErrs

/-- Modelled from the spec: a composite step delegating to a nested
Lifecycle Stack (spec section 4.2, arbitrary nesting): its enter is the
nested enter phase, its exit the nested reverse-order exit phase. -/
def compStep (steps : List StepB) : StepB :=
  { enterB := enterList steps
    exitB := exitListEv steps
    exitErrs := exitErrsList steps }

/-- Result of an orchestration run: success, a surfaced forward-path
failure (from an enter or from the body, first error wins), or aggregated
teardown failures after a successful body. -/
inductive RunRes where
  | ok
  | failed (e : Nat)
  | teardownFailed (errs : List Nat)
deriving DecidableEq

/-- Modelled from the spec: a full Lifecycle Stack run (spec section 4.2).
Enters run in order; if one raises, the already-entered steps are unwound
in reverse and that failure surfaces.  Otherwise the body runs and every
exit runs in strict reverse order whether or not the body failed; a body
failure takes precedence over exit failures, and exit failures after a
successful body are aggregated into a combined teardown failure. -/
def runStack (steps : List StepB) (body : Option Nat) : List Event × RunRes :=
  match enterList steps with
  | (tr, some e) => (tr, .failed e)
  | (tr, none) =>
    let trace := tr ++ Event.bodyRun :: exitListEv steps
    match body with
    | some e => (trace, .failed e)
    | none =>
      match exitErrsList steps with
      | [] => (trace, .ok)
      | errs => (trace, .teardownFailed errs)

/-- The well-formed stacks whose enters all succeed: primitive steps with
a succeeding enter, and composites of such stacks, paired with the flat
list of their leaf ids in enter order. -/
inductive IsStackOk : StepB → List Nat → Prop where
  | leaf (i : Nat) (xf : Option Nat) : IsStackOk (leafStep i none xf) [i]
  | comp (l : List (StepB × List Nat)) (h : ∀ p ∈ l, IsStackOk p.1 p.2) :
      IsStackOk (compStep (l.map Prod.fst)) ((l.map Prod.snd).flatten)

theorem enterList_ok (l : List (StepB × List Nat))
    (h : ∀ p ∈ l, p.1.enterB = (p.2.map Event.enterOk, none)) :
    enterList (l.map Prod.fst) = (((l.map Prod.snd).flatten).map Event.enterOk, none) := by
  induction l with
  | nil => simp [enterList]
  | cons p rest ih =>
    have h1 := h p (by simp)
    have h2 : ∀ q ∈ rest, q.1.enterB = (q.2.map Event.enterOk, none) :=
      fun q hq => h q (by simp [hq])
    simp [enterList, h1, ih h2]

theorem exitListEv_ok (l : List (StepB × List Nat))
    (h : ∀ p ∈ l, p.1.exitB = p.2.reverse.map Event.exitRun) :
    exitListEv (l.map Prod.fst) = ((l.map Prod.snd).flatten).reverse.map Event.exitRun := by
  induction l with
  | nil => simp [exitListEv]
  | cons p rest ih =>
    have h1 := h p (by simp)
    have h2 : ∀ q ∈ rest, q.1.exitB = q.2.reverse.map Event.exitRun :=
      fun q hq => h q (by simp [hq])
    simp [exitListEv, h1, ih h2]

theorem isStackOk_enter_exit {s : StepB} {ids : List Nat} (h : IsStackOk s ids) :
    s.enterB = (ids.map Event.enterOk, none) ∧ s.exitB = ids.reverse.map Event.exitRun := by
  induction h with
  | leaf i xf => simp [leafStep]
  | comp l h ih =>
    refine ⟨?_, ?_⟩
    · exact enterList_ok l (fun p hp => (ih p hp).1)
    · exact exitListEv_ok l (fun p hp => (ih p hp).2)

theorem count_map_enterOk (ids : List Nat) (i : Nat) :
    (ids.map Event.enterOk).count (Event.enterOk i) = ids.count i := by
  induction ids with
  | nil => simp
  | cons a rest ih => simp [List.count_cons, ih]

theorem count_map_exitRun (ids : List Nat) (i : Nat) :
    (ids.map Event.exitRun).count (Event.exitRun i) = ids.count i := by
  induction ids with
  | nil => simp
  | cons a rest ih => simp [List.count_cons, ih]

theorem count_exitRun_map_enterOk (ids : List Nat) (i : Nat) :
    (ids.map Event.enterOk).count (Event.exitRun i) = 0 := by
  induction ids with
  | nil => simp
  | cons a rest ih => simp [List.count_cons, ih]

theorem count_enterOk_map_exitRun (ids : List Nat) (i : Nat) :
    (ids.map Event.exitRun).count (Event.enterOk i) = 0 := by
  induction ids with
  | nil => simp
  | cons a rest ih => simp [List.count_cons, ih]

/-- Claim C1: for every ordered list of provisioning steps run by the
orchestration, composed with arbitrary nesting, if every step's enter
succeeds and the workload body succeeds, then the run's trace is exactly
all enters in list order, the body, and every entered step's exit in
exact reverse of the enter order across the full flattened step list; in
particular each successfully entered step's exit runs exactly as often as
its enter, i.e. exactly once per entered step. -/
theorem lifecycle_exits_reverse (l : List (StepB × List Nat))
    (h : ∀ p ∈ l, IsStackOk p.1 p.2) :
    (runStack (l.map Prod.fst) none).1
      = ((l.map Prod.snd).flatten).map Event.enterOk
        ++ Event.bodyRun :: (((l.map Prod.snd).flatten).reverse.map Event.exitRun)
    ∧ ∀ i : Nat,
        (runStack (l.map Prod.fst) none).1.count (Event.exitRun i)
          = (runStack (l.map Prod.fst) none).1.count (Event.enterOk i) := by
  have he := enterList_ok l (fun p hp => (isStackOk_enter_exit (h p hp)).1)
  have hx := exitListEv_ok l (fun p hp => (isStackOk_enter_exit (h p hp)).2)
  have htr : (runStack (l.map Prod.fst) none).1
      = ((l.map Prod.snd).flatten).map Event.enterOk
        ++ Event.bodyRun :: (((l.map Prod.snd).flatten).reverse.map Event.exitRun) := by
    simp [runStack, he, hx]
    rcases hrr : exitErrsList (l.map Prod.fst) with _ | ⟨a, errs⟩ <;> simp
  refine ⟨htr, fun i => ?_⟩
  generalize hg : (l.map Prod.snd).flatten = ids at htr
  rw [htr]
  simp [List.count_append, List.count_cons, count_map_enterOk, count_map_exitRun,
    count_exitRun_map_enterOk, count_enterOk_map_exitRun, List.count_reverse]

/-- The step list of the task orchestration (create_image, modprobe,
dev_create, mkfs, mount) with the middle pair composed through a nested
stack, all enters succeeding, paired with the flat leaf ids. -/
def lifecycleDemoSteps : List (StepB × List Nat) :=
  [(leafStep 0 none none, [0]),
   (compStep [leafStep 1 none none, leafStep 2 none none], [1, 2]),
   (leafStep 3 none none, [3]),
   (leafStep 4 none none, [4])]

theorem lifecycle_exits_reverse_witness :
    (∀ p ∈ lifecycleDemoSteps, IsStackOk p.1 p.2)
    ∧ (runStack (lifecycleDemoSteps.map Prod.fst) none).1
        = [Event.enterOk 0, Event.enterOk 1, Event.enterOk 2, Event.enterOk 3,
           Event.enterOk 4, Event.bodyRun, Event.exitRun 4, Event.exitRun 3,
           Event.exitRun 2, Event.exitRun 1, Event.exitRun 0] := by
  have h : ∀ p ∈ lifecycleDemoSteps, IsStackOk p.1 p.2 := by
    intro p hp
    simp only [lifecycleDemoSteps, List.mem_cons, List.not_mem_nil, or_false] at hp
    rcases hp with h1 | h2 | h3 | h4
    · rw [h1]; exact IsStackOk.leaf 0 none
    · rw [h2]
      exact IsStackOk.comp [(leafStep 1 none none, [1]), (leafStep 2 none none, [2])]
        (by
          intro q hq
          simp only [List.mem_cons, List.not_mem_nil, or_false] at hq
          rcases hq with h5 | h6
          · rw [h5]; exact IsStackOk.leaf 1 none
          · rw [h6]; exact IsStackOk.leaf 2 none)
    · rw [h3]; exact IsStackOk.leaf 3 none
    · rw [h4]; exact IsStackOk.leaf 4 none
  refine ⟨h, ?_⟩
  have := (lifecycle_exits_reverse lifecycleDemoSteps h).1
  simpa [lifecycleDemoSteps] using this

theorem enterList_append_ok (pre : List (StepB × List Nat))
    (h : ∀ p ∈ pre, p.1.enterB = (p.2.map Event.enterOk, none)
        ∧ p.1.exitB = p.2.reverse.map Event.exitRun)
    (rest : List StepB) (tr : List Event) (e : Nat)
    (hrest : enterList rest = (tr, some e)) :
    enterList (pre.map Prod.fst ++ rest)
      = (((pre.map Prod.snd).flatten).map Event.enterOk ++ tr
          ++ ((pre.map Prod.snd).flatten).reverse.map Event.exitRun, some e) := by
  induction pre with
  | nil => simpa [enterList] using hrest
  | cons p rest2 ih =>
    have h1 := h p (by simp)
    have h2 : ∀ q ∈ rest2, q.1.enterB = (q.2.map Event.enterOk, none)
        ∧ q.1.exitB = q.2.reverse.map Event.exitRun :=
      fun q hq => h q (by simp [hq])
    simp [enterList, h1.1, h1.2, ih h2]

/-- Claim C2: for every step list and failing step k, if every step
before k enters successfully and step k's enter raises e, then no later
step's enter runs, the exits run exactly for the already-entered prefix in
strict reverse order, and the surfaced error is the one step k raised. -/
theorem lifecycle_enter_failure (pre : List (StepB × List Nat))
    (h : ∀ p ∈ pre, IsStackOk p.1 p.2) (k e : Nat) (xf : Option Nat)
    (post : List StepB) (body : Option Nat) :
    runStack (pre.map Prod.fst ++ leafStep k (some e) xf :: post) body
      = (((pre.map Prod.snd).flatten).map Event.enterOk
          ++ Event.enterFail k :: (((pre.map Prod.snd).flatten).reverse.map Event.exitRun),
         RunRes.failed e) := by
  have hrest : enterList (leafStep k (some e) xf :: post) = ([Event.enterFail k], some e) := by
    simp [enterList, leafStep]
  have hall := enterList_append_ok pre (fun p hp => isStackOk_enter_exit (h p hp))
    (leafStep k (some e) xf :: post) [Event.enterFail k] e hrest
  simp [runStack, hall]

theorem lifecycle_enter_failure_witness :
    (∀ p ∈ [((leafStep 0 none none : StepB), [0])], IsStackOk p.1 p.2)
    ∧ runStack [leafStep 0 none none, leafStep 1 (some 7) none, leafStep 2 none none] none
        = ([Event.enterOk 0, Event.enterFail 1, Event.exitRun 0], RunRes.failed 7) := by
  have h : ∀ p ∈ [((leafStep 0 none none : StepB), [0])], IsStackOk p.1 p.2 := by
    intro p hp
    simp only [List.mem_cons, List.not_mem_nil, or_false] at hp
    rw [hp]; exact IsStackOk.leaf 0 none
  refine ⟨h, ?_⟩
  have := lifecycle_enter_failure [((leafStep 0 none none : StepB), [0])] h 1 7 none
    [leafStep 2 none none] none
  simpa using this

/-- A failure oracle that fails the image creation on exactly one role. -/
def failsOn (bad : String) : String → Option Nat :=
  fun r => if r = bad then some 1 else none

/-- The two-target configuration client.0, client.1 with defaults. -/
def cfgTwoClients : RbdConfig := .dict [("client.0", none), ("client.1", none)]

theorem createLoop_append_fail (fails : String → Option Nat) (e : Nat)
    (role : String) (props : Option ImgProps) (rest : List (String × Option ImgProps))
    (hrole : fails role = some e) :
    ∀ pre : List (String × Option ImgProps), (∀ p ∈ pre, fails p.1 = none) →
      createLoop fails (pre ++ (role, props) :: rest)
        = (pre.map (fun p => (p.1, createCmdArgs p.1 p.2))
            ++ [(role, createCmdArgs role props)], some e) := by
  intro pre
  induction pre with
  | nil => intro _; simp [createLoop, hrole]
  | cons q rest2 ih =>
    intro h
    have h1 : fails q.1 = none := h q (by simp)
    have h2 : ∀ p ∈ rest2, fails p.1 = none := fun p hp => h p (by simp [hp])
    simp [createLoop, h1, ih h2]

/-- Claim C3 counterexample, at the concrete configuration with targets
client.0 and client.1 and default properties: when client.0's creation
fails, creation of client.1 is never attempted (refuting that one
target's failure does not prevent attempting the others); and when
client.1's creation fails, the run contains no deletion command at all,
so client.0's already-created image is not destroyed by the step
(refuting that earlier targets' images are still destroyed). -/
theorem create_image_counterexample :
    create_image_run (failsOn "client.0") cfgTwoClients none
      = ([("client.0", createCmdArgs "client.0" none)], some 1)
    ∧ create_image_run (failsOn "client.1") cfgTwoClients none
      = ([("client.0", createCmdArgs "client.0" none),
          ("client.1", createCmdArgs "client.1" none)], some 1)
    ∧ ("client.1", createCmdArgs "client.1" none)
        ∉ (create_image_run (failsOn "client.0") cfgTwoClients none).1
    ∧ ("client.0", rbdRmArgs "testimage.client.0")
        ∉ (create_image_run (failsOn "client.1") cfgTwoClients none).1 := by
  have h0 : create_image_run (failsOn "client.0") cfgTwoClients none
      = ([("client.0", createCmdArgs "client.0" none)], some 1) := by
    simp [create_image_run, createLoop, cfgTwoClients, imagesOf, failsOn]
  have h1 : create_image_run (failsOn "client.1") cfgTwoClients none
      = ([("client.0", createCmdArgs "client.0" none),
          ("client.1", createCmdArgs "client.1" none)], some 1) := by
    simp [create_image_run, createLoop, cfgTwoClients, imagesOf, failsOn]
  refine ⟨h0, h1, ?_, ?_⟩
  · rw [h0]; decide
  · rw [h1]; decide

/-- Claim C3 (amended): in create_image with multiple targets, the targets
are provisioned strictly in list order and a target's creation failure
aborts the step's enter immediately: the earlier targets' creations have
run, the failing creation was attempted, creation is not attempted for
any remaining target, no deletion runs inside the step (so earlier
targets' images are not destroyed by it), and the step's enter as a whole
fails with the raising target's error. -/
theorem create_image_abort (fails : String → Option Nat) (e : Nat)
    (pre : List (String × Option ImgProps)) (role : String) (props : Option ImgProps)
    (rest : List (String × Option ImgProps)) (body : Option Nat)
    (hpre : ∀ p ∈ pre, fails p.1 = none) (hrole : fails role = some e) :
    create_image_run fails (.dict (pre ++ (role, props) :: rest)) body
      = (pre.map (fun p => (p.1, createCmdArgs p.1 p.2))
          ++ [(role, createCmdArgs role props)], some e) := by
  simp [create_image_run, imagesOf, createLoop_append_fail fails e role props rest hrole pre hpre]

theorem create_image_abort_witness :
    (∀ p ∈ [(("client.0" : String), (none : Option ImgProps))], failsOn "client.1" p.1 = none)
    ∧ failsOn "client.1" "client.1" = some 1
    ∧ create_image_run (failsOn "client.1")
        (.dict ([("client.0", none)] ++ ("client.1", (none : Option ImgProps)) :: [])) none
      = ([("client.0", createCmdArgs "client.0" none),
          ("client.1", createCmdArgs "client.1" none)], some 1) := by
  have hpre : ∀ p ∈ [(("client.0" : String), (none : Option ImgProps))],
      failsOn "client.1" p.1 = none := by decide
  have hrole : failsOn "client.1" "client.1" = some 1 := by decide
  refine ⟨hpre, hrole, ?_⟩
  have := create_image_abort (failsOn "client.1") 1 [("client.0", none)] "client.1" none []
    none hpre hrole
  simpa using this

theorem waitTicks_spin (fuel : Nat) : ∀ t : Nat, waitTicks (fun _ => true) fuel t = none := by
  induction fuel with
  | zero => intro t; rfl
  | succ n ih => intro t; simpa [waitTicks] using ih (t + 1)

/-- Claim C4 is refuted by the code (the spec records it as the intended
behaviour): the polling waits of the mapping step are unbounded.  With the
unmap (resp. map) command succeeding and the udev symlink never
disappearing (resp. never appearing), the composed exit (resp. enter)
command is still running after every finite number of one-second polls,
so remote.run never returns and no DeviceTimeoutError (indeed no failure
at all) is ever surfaced.  The outcome type of the model has no timeout
alternative because the source has none. -/
theorem dev_create_poll_unbounded :
    (∀ fuel : Nat,
        evalShell (fun _ => 0) (fun _ => true) fuel (devUnmapCmd "testimage.client.0") = none)
    ∧ (∀ fuel : Nat,
        evalShell (fun _ => 0) (fun _ => false) fuel (devMapCmd "client.0" "testimage.client.0")
          = none)
    ∧ (∀ fuel : Nat,
        remoteRun (fun _ => 0) (fun _ => true) fuel true (devUnmapCmd "testimage.client.0")
          = none) := by
  have hu : ∀ fuel : Nat,
      evalShell (fun _ => 0) (fun _ => true) fuel (devUnmapCmd "testimage.client.0") = none := by
    intro fuel
    simp [devUnmapCmd, evalShell, waitTicks_spin fuel 0]
  refine ⟨hu, ?_, ?_⟩
  · intro fuel
    simp [devMapCmd, evalShell, waitTicks_spin fuel 0]
  · intro fuel
    simp [remoteRun, hu fuel]

/-- Claim C7: the kernel-module step's exit never fails: whatever status
the unload command itself returns, the composed command (unload
disjunction true) exits 0, so remote.run surfaces no error.  By contrast
the mapping step's exit propagates unmap failures: a nonzero unmap status
short-circuits the composed unmap command and remote.run raises exactly
that failure; only the final udev-rule-file removal, issued with wait
false, never surfaces a failure. -/
theorem modprobe_exit_swallows_unmap_propagates :
    (∀ (env : List String → Nat) (present : Nat → Bool) (fuel : Nat),
        remoteRun env present fuel true modprobeUnloadCmd = some none)
    ∧ (∀ (env : List String → Nat) (present : Nat → Bool) (fuel : Nat) (image : String)
        (s : Nat), s ≠ 0 → env (rbdUnmapArgs image) = s →
        remoteRun env present fuel true (devUnmapCmd image) = some (some s))
    ∧ (∀ (env : List String → Nat) (present : Nat → Bool) (fuel : Nat),
        remoteRun env present fuel false (.simple rmRulesArgs) = some none) := by
  refine ⟨?_, ?_, ?_⟩
  · intro env present fuel
    have hne : ¬ ((["sudo", "modprobe", "-r", "rbd"] : List String) = ["true"]) := by decide
    by_cases h : env ["sudo", "modprobe", "-r", "rbd"] = 0 <;>
      simp [remoteRun, evalShell, modprobeUnloadCmd, hne, h]
  · intro env present fuel image s hs henv
    have hne : ¬ (rbdUnmapArgs image = ["true"]) := by simp [rbdUnmapArgs, rbdWrapper]
    simp [remoteRun, evalShell, devUnmapCmd, hne, henv, hs]
  · intro env present fuel
    simp [remoteRun]

theorem modprobe_exit_swallows_unmap_propagates_witness :
    remoteRun (fun _ => 3) (fun _ => true) 5 true modprobeUnloadCmd = some none
    ∧ ((3 : Nat) ≠ 0
        ∧ (fun _ : List String => 3) (rbdUnmapArgs "testimage.client.0") = 3
        ∧ remoteRun (fun _ => 3) (fun _ => true) 5 true (devUnmapCmd "testimage.client.0")
            = some (some 3))
    ∧ remoteRun (fun _ => 3) (fun _ => true) 5 false (.simple rmRulesArgs) = some none :=
  ⟨modprobe_exit_swallows_unmap_propagates.1 (fun _ => 3) (fun _ => true) 5,
   ⟨by decide, rfl,
    modprobe_exit_swallows_unmap_propagates.2.1 (fun _ => 3) (fun _ => true) 5
      "testimage.client.0" 3 (by decide) rfl⟩,
   modprobe_exit_swallows_unmap_propagates.2.2 (fun _ => 3) (fun _ => true) 5⟩

/-- Claim C6: defaults apply per-field and independently.  For a target
whose properties omit the image name, every step referencing the target
(image creation, device mapping via the task wiring, mkfs, mount) resolves
the same canonical default testimage.<target>; an omitted size resolves
to 10240 and an omitted format to 1, each independently of the other
fields. -/
theorem image_defaults_per_field (role : String) (p : ImgProps) :
    (p.image_name = none →
      create_image_name role (some p) = "testimage." ++ role
      ∧ mkfs_image role (some p) = "testimage." ++ role
      ∧ dev_create_image role (task_role_image (some p)) = "testimage." ++ role
      ∧ mount_image role (task_role_image (some p)) = "testimage." ++ role)
    ∧ (p.image_size = none → create_image_size (some p) = 10240)
    ∧ (p.image_format = none → create_image_format (some p) = 1) := by
  refine ⟨fun hn => ?_, fun hs => ?_, fun hf => ?_⟩
  · simp [create_image_name, mkfs_image, dev_create_image, mount_image, task_role_image,
      default_image_name, hn]
  · simp [create_image_size, hs]
  · simp [create_image_format, hf]

theorem image_defaults_per_field_witness :
    ({} : ImgProps).image_name = none
    ∧ create_image_name "client.0" (some {}) = "testimage." ++ "client.0"
    ∧ mkfs_image "client.0" (some {}) = "testimage." ++ "client.0"
    ∧ dev_create_image "client.0" (task_role_image (some {})) = "testimage." ++ "client.0"
    ∧ mount_image "client.0" (task_role_image (some {})) = "testimage." ++ "client.0"
    ∧ create_image_size (some {}) = 10240
    ∧ create_image_format (some {}) = 1 := by
  have h := image_defaults_per_field "client.0" {}
  have h1 := h.1 rfl
  exact ⟨rfl, h1.1, h1.2.1, h1.2.2.1, h1.2.2.2, h.2.1 rfl, h.2.2 rfl⟩

/-- Claim C10: when a target's properties omit fs_type, the mkfs step
creates an ext3 filesystem (the implementation-chosen default), whereas
the xfstests workflow defaults its test config fs_type to xfs. -/
theorem mkfs_default_fs (role : String) (p : ImgProps) (q : XfsProps)
    (hp : p.fs_type = none) (hq : q.fs_type = none) :
    mkfs_run (.dict [(role, some p)])
      = [(role, ["sudo", "mkfs", "-t", "ext3", rbdDevPath (mkfs_image role (some p))])]
    ∧ (resolveXfsRun role (some q)).fs_type = "xfs" := by
  constructor
  · simp [mkfs_run, imagesOf, mkfsLoop, mkfs_fs_type, hp, mkfsArgs]
  · simp [resolveXfsRun, hq]

theorem mkfs_default_fs_witness :
    ({} : ImgProps).fs_type = none
    ∧ ({} : XfsProps).fs_type = none
    ∧ mkfs_run (.dict [("client.0", some {})])
        = [("client.0", ["sudo", "mkfs", "-t", "ext3",
            rbdDevPath (mkfs_image "client.0" (some {}))])]
    ∧ (resolveXfsRun "client.0" (some {})).fs_type = "xfs" := by
  have h := mkfs_default_fs "client.0" {} {} rfl rfl
  exact ⟨rfl, rfl, h.1, h.2⟩


theorem mountLoop_cons_ok (role : String) (image : Option String)
    (rest : List (String × Option String)) (h : isClientRole role = true) :
    mountLoop ((role, image) :: rest)
      = ([(role, ["mkdir", "--",
            "/tmp/cephtest/mnt." ++ String.mk (role.data.drop "client.".data.length)]),
          (role, ["sudo", "mount", rbdDevPath (mount_image role image),
            "/tmp/cephtest/mnt." ++ String.mk (role.data.drop "client.".data.length)])]
          ++ (mountLoop rest).1, (mountLoop rest).2) := by
  rcases hm : mountLoop rest with ⟨cs, r⟩
  simp [mountLoop, stripClientId, h, hm]

theorem mountLoop_assert (role : String) (image : Option String)
    (rest : List (String × Option String)) (hrole : isClientRole role = false) :
    ∀ pre : List (String × Option String),
      (∀ p ∈ pre, isClientRole p.1 = true) →
      mountLoop (pre ++ (role, image) :: rest)
        = ((mountLoop pre).1, some (.assertionFailed role)) := by
  intro pre
  induction pre with
  | nil => intro _; simp [mountLoop, stripClientId, hrole]
  | cons q pre2 ih =>
    intro h
    obtain ⟨r0, i0⟩ := q
    have h0 : isClientRole r0 = true := h (r0, i0) (by simp)
    have h2 : ∀ p ∈ pre2, isClientRole p.1 = true := fun p hp => h p (by simp [hp])
    rw [List.cons_append, mountLoop_cons_ok r0 i0 _ h0, mountLoop_cons_ok r0 i0 pre2 h0,
      ih h2]

/-- Claim C9: the mount step requires every target to carry the literal
client. prefix: a target without it trips the strip_client_prefix assert
before the step issues any remote command for that target (only the
commands of the earlier, valid targets have run and the whole enter
fails), and for a valid target the mount point is /tmp/cephtest/mnt.<id>
with <id> the target identifier with the client. prefix stripped. -/
theorem mount_requires_client_role (pre : List (String × Option String))
    (hpre : ∀ p ∈ pre, isClientRole p.1 = true)
    (role : String) (image : Option String) (rest : List (String × Option String))
    (hrole : isClientRole role = false) :
    mountLoop (pre ++ (role, image) :: rest)
      = ((mountLoop pre).1, some (.assertionFailed role))
    ∧ ∀ (good : String) (img : Option String) (rest2 : List (String × Option String)),
        isClientRole good = true →
        mountLoop ((good, img) :: rest2)
          = ([(good, ["mkdir", "--",
                "/tmp/cephtest/mnt." ++ String.mk (good.data.drop "client.".data.length)]),
              (good, ["sudo", "mount", rbdDevPath (mount_image good img),
                "/tmp/cephtest/mnt." ++ String.mk (good.data.drop "client.".data.length)])]
              ++ (mountLoop rest2).1, (mountLoop rest2).2) :=
  ⟨mountLoop_assert role image rest hrole pre hpre,
   fun good img rest2 hgood => mountLoop_cons_ok good img rest2 hgood⟩

theorem mount_requires_client_role_witness :
    (∀ p ∈ [(("client.3" : String), (none : Option String))], isClientRole p.1 = true)
    ∧ isClientRole "osd.0" = false
    ∧ mountLoop [("client.3", none), ("osd.0", none)]
        = ([("client.3", ["mkdir", "--", "/tmp/cephtest/mnt.3"]),
            ("client.3", ["sudo", "mount", "/dev/rbd/rbd/testimage.client.3",
              "/tmp/cephtest/mnt.3"])],
           some (.assertionFailed "osd.0")) := by
  have hpre : ∀ p ∈ [(("client.3" : String), (none : Option String))],
      isClientRole p.1 = true := by decide
  have hrole : isClientRole "osd.0" = false := by decide
  refine ⟨hpre, hrole, ?_⟩
  have h := (mount_requires_client_role [("client.3", none)] hpre "osd.0" none [] hrole).1
  rw [show ([("client.3", none)] ++ ("osd.0", (none : Option String)) :: [])
      = [("client.3", none), ("osd.0", none)] from rfl] at h
  rw [h]
  decide

theorem claimHosts_ok_eq (role : String) :
    ∀ (cl : List (String × List String)) (running r : List String),
      claimHosts role cl running = .ok r → r = running ++ hostsOf role cl := by
  intro cl
  induction cl with
  | nil =>
    intro running r h
    simp [claimHosts] at h
    simp [hostsOf, h]
  | cons q rest ih =>
    obtain ⟨host, rolesForHost⟩ := q
    intro running r h
    by_cases hm : role ∈ rolesForHost
    · by_cases hr : host ∈ running
      · simp [claimHosts, hm, hr] at h
      · simp only [claimHosts, if_pos hm, if_neg hr] at h
        rw [ih (running ++ [host]) r h]
        simp [hostsOf, hm]
    · simp only [claimHosts, if_neg hm] at h
      rw [ih running r h]
      simp [hostsOf, hm]

theorem claimHosts_ok_fresh (role : String) :
    ∀ (cl : List (String × List String)) (running r : List String),
      claimHosts role cl running = .ok r →
      (hostsOf role cl).Nodup ∧ ∀ x ∈ hostsOf role cl, x ∉ running := by
  intro cl
  induction cl with
  | nil => intro running r _; simp [hostsOf]
  | cons q rest ih =>
    obtain ⟨host, rolesForHost⟩ := q
    intro running r h
    by_cases hm : role ∈ rolesForHost
    · by_cases hr : host ∈ running
      · simp [claimHosts, hm, hr] at h
      · simp only [claimHosts, if_pos hm, if_neg hr] at h
        obtain ⟨hnd, hfresh⟩ := ih (running ++ [host]) r h
        have hhost : host ∉ hostsOf role rest := by
          intro hmem
          exact (hfresh host hmem) (by simp)
        refine ⟨?_, ?_⟩
        · simp [hostsOf, hm, List.nodup_cons, hhost, hnd]
        · intro x hx
          simp only [hostsOf, if_pos hm, List.mem_cons] at hx
          rcases hx with rfl | hx
          · exact hr
          · intro hxr
            exact hfresh x hx (by simp [hxr])
    · simp only [claimHosts, if_neg hm] at h
      obtain ⟨hnd, hfresh⟩ := ih running r h
      simpa [hostsOf, hm] using ⟨hnd, hfresh⟩

theorem checkRuns_none_nodup (cluster : List (String × List String)) :
    ∀ (runs : List (String × Option XfsProps)) (running : List String),
      running.Nodup → checkRuns cluster runs running = none →
      (running ++ (runs.map (fun p => hostsOf p.1 cluster)).flatten).Nodup := by
  intro runs
  induction runs with
  | nil => intro running hnd _; simpa using hnd
  | cons q rest ih =>
    obtain ⟨role, props⟩ := q
    intro running hnd h
    by_cases hc : isClientRole role = true
    · rcases hcl : claimHosts role cluster running with herr | r2
      · simp [checkRuns, hc, hcl] at h
      · simp only [checkRuns, if_pos hc, hcl] at h
        have heq := claimHosts_ok_eq role cluster running r2 hcl
        obtain ⟨hnd2, hfresh⟩ := claimHosts_ok_fresh role cluster running r2 hcl
        have hr2 : r2.Nodup := by
          rw [heq, List.nodup_append]
          exact ⟨hnd, hnd2, fun a ha hb => hfresh a hb ha⟩
        have := ih r2 hr2 h
        rw [heq] at this
        simpa [List.append_assoc] using this
    · simp [checkRuns, hc] at h

theorem checkRuns_no_notClient (cluster : List (String × List String)) :
    ∀ (runs : List (String × Option XfsProps)) (running : List String),
      (∀ p ∈ runs, isClientRole p.1 = true) →
      ∀ r : String, checkRuns cluster runs running ≠ some (.notClient r) := by
  intro runs
  induction runs with
  | nil => intro running _ r; simp [checkRuns]
  | cons q rest ih =>
    obtain ⟨role, props⟩ := q
    intro running hcl r
    have hc : isClientRole role = true := hcl (role, props) (by simp)
    have hcl2 : ∀ p ∈ rest, isClientRole p.1 = true := fun p hp => hcl p (by simp [hp])
    rcases hclh : claimHosts role cluster running with herr | r2
    · simp [checkRuns, hc, hclh]
    · simpa [checkRuns, hc, hclh] using ih r2 hcl2 r

/-- Claim C5: for every xfstests configuration in which two run targets
resolve (anywhere in the cluster map) to overlapping hosts, the checking
loop fails with the one-instance-per-host conflict assertion before any
remote command is executed: the run issues no command at all, so no
provisioning enter runs for any target. -/
theorem xfstests_conflict (cluster : List (String × List String))
    (config : List (String × Option XfsProps))
    (hclient : ∀ p ∈ config, isClientRole p.1 = true)
    (hdup : ¬ ((config.map (fun p => hostsOf p.1 cluster)).flatten).Nodup) :
    ∃ h : String, xfstests_run cluster config = ([], some (.conflict h)) := by
  rcases hc : checkRuns cluster config [] with _ | err
  · exact absurd (by simpa using checkRuns_none_nodup cluster config [] List.nodup_nil hc) hdup
  · cases err with
    | notClient r => exact absurd hc (checkRuns_no_notClient cluster config [] hclient r)
    | conflict h => exact ⟨h, by simp [xfstests_run, hc]⟩

theorem xfstests_conflict_witness :
    (∀ p ∈ [(("client.0" : String), (none : Option XfsProps)), ("client.1", none)],
        isClientRole p.1 = true)
    ∧ ¬ (([(("client.0" : String), (none : Option XfsProps)), ("client.1", none)].map
          (fun p => hostsOf p.1 [("h1", ["client.0", "client.1"])])).flatten).Nodup
    ∧ ∃ h : String,
        xfstests_run [("h1", ["client.0", "client.1"])]
          [("client.0", none), ("client.1", none)]
          = ([], some (.conflict h)) := by
  have hclient : ∀ p ∈ [(("client.0" : String), (none : Option XfsProps)), ("client.1", none)],
      isClientRole p.1 = true := by decide
  have hdup : ¬ (([(("client.0" : String), (none : Option XfsProps)), ("client.1", none)].map
      (fun p => hostsOf p.1 [("h1", ["client.0", "client.1"])])).flatten).Nodup := by decide
  exact ⟨hclient, hdup,
    xfstests_conflict [("h1", ["client.0", "client.1"])]
      [("client.0", none), ("client.1", none)] hclient hdup⟩

theorem list_map_id_of {α : Type} (l : List α) (f : α → α) (h : ∀ a ∈ l, f a = a) :
    l.map f = l := by
  induction l with
  | nil => rfl
  | cons a rest ih => simp [h a (by simp), ih (fun b hb => h b (by simp [hb]))]

theorem client_prepend_ne_all (c : String) : ("client." ++ c) ≠ "all" := by
  intro h
  have hlen := congrArg String.length h
  rw [String.length_append] at hlen
  have h7 : String.length "client." = 7 := by decide
  have h3 : String.length "all" = 3 := by decide
  rw [h7, h3] at hlen
  omega

theorem expandAll_ne_all (clients : List String) :
    ∀ (l : List (String × Option ImgProps)) (q : String × Option ImgProps),
      q ∈ expandAll clients l → q.1 ≠ "all" := by
  intro l
  induction l with
  | nil => intro q hq; simp [expandAll] at hq
  | cons p rest ih =>
    intro q hq
    obtain ⟨role, props⟩ := p
    by_cases hall : role = "all"
    · simp only [expandAll, if_pos hall, List.mem_append] at hq
      rcases hq with hq | hq
      · obtain ⟨c, _, rfl⟩ := List.mem_map.1 hq
        exact client_prepend_ne_all c
      · exact ih q hq
    · simp only [expandAll, if_neg hall, List.singleton_append, List.mem_cons] at hq
      rcases hq with rfl | hq
      · exact hall
      · exact ih q hq

theorem expandAll_of_no_all (clients : List String) :
    ∀ l : List (String × Option ImgProps),
      (∀ q ∈ l, q.1 ≠ "all") → expandAll clients l = l := by
  intro l
  induction l with
  | nil => intro _; rfl
  | cons p rest ih =>
    intro h
    obtain ⟨role, props⟩ := p
    have hr : role ≠ "all" := h (role, props) (by simp)
    have h2 : ∀ q ∈ rest, q.1 ≠ "all" := fun q hq => h q (by simp [hq])
    simp [expandAll, hr, ih h2]

theorem resolveProps_resolved (role : String) (r : ResolvedImg) :
    resolveProps role (some (toRawProps r)) = r := rfl

theorem normalizeConfig_roles_ne_all (clients : List String) (config : RbdConfig) :
    ∀ q ∈ normalizeConfig clients config, q.1 ≠ "all" := by
  intro q hq
  rw [normalizeConfig] at hq
  obtain ⟨q2, hq2, rfl⟩ := List.mem_map.1 hq
  exact expandAll_ne_all clients _ q2 hq2

/-- Claim C8: config normalization is idempotent: for every raw
configuration, feeding the normalizer's canonical output (alias expanded,
every field resolved) back through the normalizer yields that same
canonical output. -/
theorem normalize_idempotent (clients : List String) (config : RbdConfig) :
    normalizeConfig clients (asConfig (normalizeConfig clients config))
      = normalizeConfig clients config := by
  have hroles := normalizeConfig_roles_ne_all clients config
  have h1 : imagesOf (asConfig (normalizeConfig clients config))
      = (normalizeConfig clients config).map (fun q => (q.1, some (toRawProps q.2))) := rfl
  have h2 : ∀ q ∈ (normalizeConfig clients config).map
      (fun q => (q.1, some (toRawProps q.2))), q.1 ≠ "all" := by
    intro q hq
    obtain ⟨q2, hq2, rfl⟩ := List.mem_map.1 hq
    exact hroles q2 hq2
  rw [normalizeConfig, h1, expandAll_of_no_all clients _ h2, List.map_map]
  apply list_map_id_of
  intro q _
  show (q.1, resolveProps q.1 (some (toRawProps q.2))) = q
  rw [resolveProps_resolved q.1 q.2]
